import Mathlib

/-!
# Durable contact store: embedding and verification

A shallow embedding of the contacts manager (`src/src/main.rs`): record
validation (`Contact::new`), the in-memory collection operations
(`Store::find`, `Store::remove`), JSON (de)serialization of records at the
JSON-value level, and the load/save protocol of the durable store
(`Store::open`, `Store::save`) as an explicit step sequence over an abstract
file-system state.

Rust `String`/`&str` values are modelled as `List Char`; Rust `str::len`
(UTF-8 byte count) as `utf8Len`; `str::trim` as `trimStr` over the Unicode
White_Space predicate; `str::to_lowercase` is kept as an explicit parameter
of `Store.find` (its full Unicode case mapping is a data table not
reproduced here), and the `find` theorems hold for every lowering function.
-/

/-- Rust string slices / owned strings, modelled as lists of characters. -/
abbrev Str := List Char

/-- The Unicode White_Space property, as used by Rust `char::is_whitespace`. -/
def isUnicodeWhitespace (c : Char) : Bool :=
  c = '\u0009' || c = '\u000A' || c = '\u000B' || c = '\u000C' || c = '\u000D' ||
  c = '\u0020' || c = '\u0085' || c = '\u00A0' || c = '\u1680' ||
  c = '\u2000' || c = '\u2001' || c = '\u2002' || c = '\u2003' || c = '\u2004' ||
  c = '\u2005' || c = '\u2006' || c = '\u2007' || c = '\u2008' || c = '\u2009' ||
  c = '\u200A' || c = '\u2028' || c = '\u2029' || c = '\u202F' || c = '\u205F' ||
  c = '\u3000'

/-- Rust `str::trim`: drop leading and trailing whitespace. -/
def trimStr (s : Str) : Str :=
  ((s.dropWhile isUnicodeWhitespace).reverse.dropWhile isUnicodeWhitespace).reverse

/-- Rust `str::len`: the length of the string in UTF-8 bytes. -/
def utf8Len (s : Str) : Nat :=
  (s.map Char.utf8Size).sum

/-- `leadsWith needle hay` holds when `needle` occurs at the start of `hay`. -/
def leadsWith : Str → Str → Bool
  | [], _ => true
  | _ :: _, [] => false
  | a :: as, b :: bs => a = b && leadsWith as bs

/-- Rust `str::contains` with a string pattern: substring containment. -/
def containsSub (hay needle : Str) : Bool :=
  match hay with
  | [] => needle.isEmpty
  | _ :: rest => leadsWith needle hay || containsSub rest needle

/-- `struct Contact` from `src/src/main.rs`. -/
structure Contact where
  id : Str
  name : Str
  email : Str
  phone : Option Str
  deriving DecidableEq, Repr

/-- Validation errors raised by `Contact::new` (the `anyhow!` messages). -/
inductive ValidationError where
  | emptyNameOrEmail
  | nameTooLong
  | emailTooLong
  | phoneTooLong
  deriving DecidableEq, Repr

/-- `Contact::new` from `src/src/main.rs`.  The randomly generated UUID is
passed in as the explicit argument `uuid` (the source calls
`Uuid::new_v4().to_string()`). -/
def Contact.new (uuid : Str) (name email : Str) (phone : Option Str) :
    Except ValidationError Contact :=
  if (trimStr name).isEmpty || (trimStr email).isEmpty then
    .error .emptyNameOrEmail
  else if utf8Len name > 200 then
    .error .nameTooLong
  else if utf8Len email > 320 then
    .error .emailTooLong
  else
    match phone with
    | some p =>
        if utf8Len p > 50 then
          .error .phoneTooLong
        else
          .ok ⟨uuid, trimStr name, trimStr email, some (trimStr p)⟩
    | none => .ok ⟨uuid, trimStr name, trimStr email, none⟩

namespace Store

/-- `Store::add`: append the contact at the end of the collection. -/
def add (contacts : List Contact) (c : Contact) : List Contact :=
  contacts ++ [c]

/-- `Store::remove`: `retain` every contact whose id differs from `id`,
returning the remaining collection and whether the length changed. -/
def remove (contacts : List Contact) (id : Str) : List Contact × Bool :=
  let remaining := contacts.filter fun c => c.id != id
  (remaining, contacts.length != remaining.length)

/-- `Store::find`: lowercase the query once, keep the contacts whose
lowercased name or email contains it.  The source lowercases with Rust
`str::to_lowercase`, whose full Unicode case mapping (a large data table
with one-to-many expansions such as U+0130, and the context-sensitive final
sigma) is not reproduced here; the lowering function is instead the
parameter `low`, so every theorem about `find` holds for the program's
actual lowering as an instance. -/
def find (low : Str → Str) (contacts : List Contact) (q : Str) : List Contact :=
  let qLower := low q
  contacts.filter fun c =>
    containsSub (low c.name) qLower || containsSub (low c.email) qLower

end Store

/-! ## JSON values

Serialization is modelled at the JSON-value level: `serde_json::to_vec_pretty`
produces the text of `encodeStore`'s value, and `serde_json::from_str` either
fails (text that is not JSON, or JSON of the wrong shape) or yields the
decoded records.  A file's bytes are therefore modelled as either a JSON
value or unparseable raw text (`FileContent`). -/

/-- JSON values (`serde_json::Value`, restricted to what the store reads and
writes; numbers are modelled as integers). -/
inductive Json where
  | null
  | bool (b : Bool)
  | num (n : Int)
  | str (s : Str)
  | arr (elems : List Json)
  | obj (fields : List (Str × Json))

/-- serde serialization of one `Contact`: every field is emitted, an absent
phone as JSON `null` (no `skip_serializing_if` in the source). -/
def encodeContact (c : Contact) : Json :=
  .obj [("id".data, .str c.id), ("name".data, .str c.name),
        ("email".data, .str c.email),
        ("phone".data, match c.phone with | some p => .str p | none => .null)]

/-- serde serialization of the whole collection: a JSON array in order. -/
def encodeStore (contacts : List Contact) : Json :=
  .arr (contacts.map encodeContact)

/-- First value bound to a key in a JSON object. -/
def jsonLookup (k : Str) : List (Str × Json) → Option Json
  | [] => none
  | (k', v) :: rest => if k' = k then some v else jsonLookup k rest

/-- serde deserialization of a required `String` field. -/
def decodeStrField (k : Str) (fields : List (Str × Json)) : Option Str :=
  match jsonLookup k fields with
  | some (.str s) => some s
  | _ => none

/-- serde deserialization of the `Option<String>` field `phone`: a missing
key or JSON `null` is `none`, a string is `some`, anything else an error. -/
def decodePhoneField (fields : List (Str × Json)) : Option (Option Str) :=
  match jsonLookup "phone".data fields with
  | none => some none
  | some .null => some none
  | some (.str s) => some (some s)
  | some _ => none

/-- serde deserialization of one `Contact` from a JSON value: an object with
required string fields `id`, `name`, `email` and optional `phone`.  No
validation beyond the types: values are taken verbatim. -/
def decodeContact (j : Json) : Option Contact :=
  match j with
  | .obj fields =>
      match decodeStrField "id".data fields, decodeStrField "name".data fields,
            decodeStrField "email".data fields, decodePhoneField fields with
      | some i, some n, some e, some p => some ⟨i, n, e, p⟩
      | _, _, _, _ => none
  | _ => none

/-- serde deserialization of a list of contacts, element by element. -/
def decodeList : List Json → Option (List Contact)
  | [] => some []
  | j :: rest =>
      match decodeContact j, decodeList rest with
      | some c, some cs => some (c :: cs)
      | _, _ => none

/-- serde deserialization of `Vec<Contact>`: the top level must be an array. -/
def decodeStore : Json → Option (List Contact)
  | .arr elems => decodeList elems
  | _ => none

/-! ## File-system state and the load/save protocol

The store touches exactly two paths: the canonical target path and the
temporary file created next to it.  `FS` records the state of both plus
whether the parent directory exists.  Each fallible operation of
`Store::open` / `Store::save` is a step that may be made to fail by a
failure oracle; a step that succeeds applies its file-system effect. -/

/-- A file's bytes, at the granularity the store observes: either text that
parses as the JSON value `j`, or raw text that is not valid JSON (in
particular `invalid []`, the empty file). -/
inductive FileContent where
  | json (j : Json)
  | invalid (raw : Str)

/-- A file: its content and its permission bits (the low 9 mode bits). -/
structure SFile where
  content : FileContent
  mode : Nat

/-- The file-system state the store can observe and mutate. -/
structure FS where
  dirExists : Bool
  target : Option SFile
  temp : Option SFile

/-- The fallible steps of `Store::save`, in source order. -/
inductive SaveStep where
  | createDir       -- fs::create_dir_all(parent)
  | openTarget      -- OpenOptions read/write/create on the target path
  | lockExclusive   -- target_file.lock_exclusive()
  | createTemp      -- NamedTempFile::new_in(parent)
  | serialize       -- serde_json::to_vec_pretty(&self.contacts)
  | writeTemp       -- tmp.write_all(&j)
  | flushTemp       -- tmp.flush()
  | setPermissions  -- fs::set_permissions(tmp.path(), 0o600)  [cfg(unix)]
  | syncTemp        -- tmp.as_file().sync_all()
  | renameTemp      -- tmp.persist(&self.path)
  deriving DecidableEq, Repr

/-- The file-system effect of one successful save step.  `defaultMode` is the
mode the open-with-create gives a newly created target file (umask
dependent); `tempMode` is the mode `NamedTempFile` gives the fresh temporary
file.  Opening with `create(true)` and no `truncate` creates an empty file
only when none exists, and leaves an existing file untouched. -/
def stepEffect (contacts : List Contact) (defaultMode tempMode : Nat) :
    SaveStep → FS → FS
  | .createDir, fs => { fs with dirExists := true }
  | .openTarget, fs =>
      { fs with target := some (fs.target.getD ⟨.invalid [], defaultMode⟩) }
  | .lockExclusive, fs => fs
  | .createTemp, fs => { fs with temp := some ⟨.invalid [], tempMode⟩ }
  | .serialize, fs => fs
  | .writeTemp, fs =>
      { fs with temp := fs.temp.map fun t =>
          { t with content := .json (encodeStore contacts) } }
  | .flushTemp, fs => fs
  | .setPermissions, fs =>
      { fs with temp := fs.temp.map fun t => { t with mode := 0o600 } }
  | .syncTemp, fs => fs
  | .renameTemp, fs => { fs with target := fs.temp, temp := none }

/-- Result of running the save protocol: the steps that completed, the
resulting file-system state, and the step at which the run failed (if any). -/
structure SaveResult where
  trace : List SaveStep
  fs : FS
  failed : Option SaveStep

/-- Run a list of steps in order.  A step on which the oracle reports failure
aborts the run (the `?` operator in the source) without applying its effect;
a successful step applies its effect and continues. -/
def runSteps (eff : SaveStep → FS → FS) (fail : SaveStep → Bool) :
    List SaveStep → FS → SaveResult
  | [], fs => ⟨[], fs, none⟩
  | s :: rest, fs =>
      if fail s then ⟨[], fs, some s⟩
      else
        let r := runSteps eff fail rest (eff s fs)
        ⟨s :: r.trace, r.fs, r.failed⟩

/-- The steps of `Store::save` in the order the source executes them
(the lock is dropped between `lockExclusive` and `createTemp`; dropping
cannot fail and has no file-system effect). -/
def saveOrder : List SaveStep :=
  [.createDir, .openTarget, .lockExclusive, .createTemp, .serialize,
   .writeTemp, .flushTemp, .setPermissions, .syncTemp, .renameTemp]

/-- `Store::save` over the file-system model. -/
def save (fail : SaveStep → Bool) (defaultMode tempMode : Nat) (fs : FS)
    (contacts : List Contact) : SaveResult :=
  runSteps (stepEffect contacts defaultMode tempMode) fail saveOrder fs

/-- The fallible steps of `Store::open` on an existing file. -/
inductive OpenStep where
  | openFile    -- OpenOptions read-only open
  | lockShared  -- file.lock_shared()
  | readFile    -- read_to_string
  deriving DecidableEq, Repr

/-- Errors of `Store::open`: an I/O or lock failure at a step, or a parse
failure carrying the offending content as diagnostic. -/
inductive OpenError where
  | ioError (s : OpenStep)
  | corrupt (diag : FileContent)

/-- `serde_json::from_str::<Vec<Contact>>` over modelled file contents. -/
def decodeFile : FileContent → Option (List Contact)
  | .invalid _ => none
  | .json j => decodeStore j

/-- `Store::open` over the file-system model: a missing file is the empty
collection (nothing is created); an existing file is opened read-only,
shared-locked, read, and parsed.  The file system is returned unchanged —
the source performs no write in `open`. -/
def openStore (fail : OpenStep → Bool) (fs : FS) :
    Except OpenError (List Contact) × FS :=
  match fs.target with
  | none => (.ok [], fs)
  | some f =>
      if fail .openFile then (.error (.ioError .openFile), fs)
      else if fail .lockShared then (.error (.ioError .lockShared), fs)
      else if fail .readFile then (.error (.ioError .readFile), fs)
      else
        match decodeFile f.content with
        | none => (.error (.corrupt f.content), fs)
        | some contacts => (.ok contacts, fs)

/-! ## Helper lemmas -/

/-- The failure oracle of the nominal run: no step fails. -/
def noFailure : SaveStep → Bool := fun _ => false

/-- The failure oracle of the nominal load: no step fails. -/
def noFailureOpen : OpenStep → Bool := fun _ => false

theorem leadsWith_iff (n h : Str) : leadsWith n h = true ↔ n <+: h := by
  induction n generalizing h with
  | nil => simp [leadsWith, List.nil_prefix]
  | cons a as ih =>
    cases h with
    | nil => simp [leadsWith, List.prefix_nil]
    | cons b bs =>
      simp [leadsWith, List.cons_prefix_cons, ih, and_comm]

theorem containsSub_iff (h n : Str) : containsSub h n = true ↔ n <:+: h := by
  induction h with
  | nil =>
    simp [containsSub, List.infix_nil, List.isEmpty_iff]
  | cons b bs ih =>
    simp [containsSub, List.infix_cons_iff, leadsWith_iff, ih]

theorem containsSub_empty (h : Str) : containsSub h [] = true := by
  cases h <;> simp [containsSub, leadsWith]

theorem decodeContact_encodeContact (c : Contact) :
    decodeContact (encodeContact c) = some c := by
  cases c with
  | mk i n e p =>
    cases p <;>
      simp [decodeContact, encodeContact, decodeStrField, decodePhoneField,
        jsonLookup]

theorem decodeList_map_encode (cs : List Contact) :
    decodeList (cs.map encodeContact) = some cs := by
  induction cs with
  | nil => rfl
  | cons c rest ih => simp [decodeList, decodeContact_encodeContact, ih]

theorem runSteps_trace_le (eff : SaveStep → FS → FS) (fail : SaveStep → Bool) :
    ∀ (steps : List SaveStep) (fs : FS), (runSteps eff fail steps fs).trace <+: steps := by
  intro steps
  induction steps with
  | nil => intro fs; simp [runSteps]
  | cons s rest ih =>
    intro fs
    by_cases h : fail s = true
    · simp [runSteps, h, List.nil_prefix]
    · simp only [runSteps, h, if_false, Bool.false_eq_true]
      exact List.cons_prefix_cons.mpr ⟨rfl, ih _⟩

theorem runSteps_failed_none_iff (eff : SaveStep → FS → FS) (fail : SaveStep → Bool) :
    ∀ (steps : List SaveStep) (fs : FS),
      (runSteps eff fail steps fs).failed = none ↔ ∀ s ∈ steps, fail s = false := by
  intro steps
  induction steps with
  | nil => intro fs; simp [runSteps]
  | cons s rest ih =>
    intro fs
    by_cases h : fail s = true
    · simp [runSteps, h]
    · simp [runSteps, h, ih, Bool.not_eq_true]

theorem runSteps_trace_of_none (eff : SaveStep → FS → FS) (fail : SaveStep → Bool) :
    ∀ (steps : List SaveStep) (fs : FS),
      (runSteps eff fail steps fs).failed = none →
      (runSteps eff fail steps fs).trace = steps := by
  intro steps
  induction steps with
  | nil => intro fs _; rfl
  | cons s rest ih =>
    intro fs h
    by_cases hf : fail s = true
    · simp [runSteps, hf] at h
    · simp only [runSteps, hf, if_false, Bool.false_eq_true] at h ⊢
      simpa using ih _ h

theorem runSteps_fs_foldl (eff : SaveStep → FS → FS) (fail : SaveStep → Bool) :
    ∀ (steps : List SaveStep) (fs : FS),
      (runSteps eff fail steps fs).fs =
        (runSteps eff fail steps fs).trace.foldl (fun a s => eff s a) fs := by
  intro steps
  induction steps with
  | nil => intro fs; rfl
  | cons s rest ih =>
    intro fs
    by_cases h : fail s = true
    · simp [runSteps, h]
    · simp only [runSteps, h, if_false, Bool.false_eq_true, List.foldl_cons]
      exact ih _

theorem runSteps_failed_some_length (eff : SaveStep → FS → FS) (fail : SaveStep → Bool) :
    ∀ (steps : List SaveStep) (fs : FS) (s₀ : SaveStep),
      (runSteps eff fail steps fs).failed = some s₀ →
      (runSteps eff fail steps fs).trace.length < steps.length := by
  intro steps
  induction steps with
  | nil => intro fs s₀ h; simp [runSteps] at h
  | cons s rest ih =>
    intro fs s₀ h
    by_cases hf : fail s = true
    · simp [runSteps, hf, Nat.succ_pos]
    · simp only [runSteps, hf, if_false, Bool.false_eq_true] at h ⊢
      simpa [Nat.succ_lt_succ_iff] using ih _ _ h

theorem stepEffect_keeps_target (cs : List Contact) (dm tm : Nat) (s : SaveStep)
    (hs : s ≠ SaveStep.renameTemp) (fs : FS) (f : SFile) (h : fs.target = some f) :
    (stepEffect cs dm tm s fs).target = some f := by
  cases s <;> simp_all [stepEffect]

theorem foldl_keeps_target (cs : List Contact) (dm tm : Nat) :
    ∀ (tr : List SaveStep), (∀ s ∈ tr, s ≠ SaveStep.renameTemp) →
      ∀ (fs : FS) (f : SFile), fs.target = some f →
      (tr.foldl (fun a s => stepEffect cs dm tm s a) fs).target = some f := by
  intro tr
  induction tr with
  | nil => intro _ fs f h; simpa
  | cons s rest ih =>
    intro hmem fs f h
    simp only [List.foldl_cons]
    exact ih (fun x hx => hmem x (List.mem_cons_of_mem _ hx)) _ f
      (stepEffect_keeps_target cs dm tm s (hmem s (List.mem_cons_self _ _)) fs f h)

theorem save_success_fs (fail : SaveStep → Bool) (dm tm : Nat) (fs : FS)
    (cs : List Contact) (h : (save fail dm tm fs cs).failed = none) :
    (save fail dm tm fs cs).fs =
      ⟨true, some ⟨.json (encodeStore cs), 0o600⟩, none⟩ := by
  have htr : (save fail dm tm fs cs).trace = saveOrder := by
    rw [save] at h ⊢
    exact runSteps_trace_of_none _ _ _ _ h
  have hfs := runSteps_fs_foldl (stepEffect cs dm tm) fail saveOrder fs
  rw [save] at htr ⊢
  rw [hfs, htr]
  simp [saveOrder, stepEffect]

/-! ## Claim theorems -/

/-- A failure oracle that fails exactly at temp-file creation. -/
def failAtCreateTemp : SaveStep → Bool :=
  fun s => match s with | .createTemp => true | _ => false

/-- Claim C1 (counterexample): start with no file at the target path and make
temp-file creation fail.  The save aborts at that step, yet afterwards the
canonical path holds a file (the empty file created by the open-with-create
used for lock acquisition) where before there was none — so a failed save
does not always leave the canonical path exactly as it was, and the rename
is not the only operation that mutates it. -/
theorem save_failed_creates_empty_file_cx :
    (save failAtCreateTemp 0o644 0o600 ⟨false, none, none⟩ []).failed =
      some SaveStep.createTemp ∧
    (⟨false, none, none⟩ : FS).target = none ∧
    (save failAtCreateTemp 0o644 0o600 ⟨false, none, none⟩ []).fs.target =
      some ⟨.invalid [], 0o644⟩ :=
  ⟨rfl, rfl, rfl⟩

/-- Claim C1 (amended): if a file already existed at the target path, then every
save that fails at any step leaves that file — content and permission bits —
exactly as it was, because only the final rename replaces an existing
canonical file.  (When no file existed, the open-for-locking step may leave
behind a newly created empty file; see the counterexample.) -/
theorem save_failed_keeps_existing_target (fail : SaveStep → Bool)
    (dm tm : Nat) (fs : FS) (cs : List Contact) (f : SFile)
    (hexist : fs.target = some f)
    (hfail : (save fail dm tm fs cs).failed.isSome) :
    (save fail dm tm fs cs).fs.target = some f := by
  obtain ⟨s₀, hs₀⟩ := Option.isSome_iff_exists.mp hfail
  rw [save] at hs₀ ⊢
  have hlen := runSteps_failed_some_length (stepEffect cs dm tm) fail saveOrder fs s₀ hs₀
  have hpre := runSteps_trace_le (stepEffect cs dm tm) fail saveOrder fs
  have htake := List.prefix_iff_eq_take.mp hpre
  have hmem : ∀ s ∈ (runSteps (stepEffect cs dm tm) fail saveOrder fs).trace,
      s ≠ SaveStep.renameTemp := by
    intro s hs heq
    subst heq
    have hk : (runSteps (stepEffect cs dm tm) fail saveOrder fs).trace.length < 10 := by
      simpa [saveOrder] using hlen
    have hdec : ∀ k, k < 10 → SaveStep.renameTemp ∉ List.take k saveOrder := by decide
    exact hdec _ hk (htake ▸ hs)
  rw [runSteps_fs_foldl]
  exact foldl_keeps_target cs dm tm _ hmem fs f hexist

/-- Claim C1 (witness): a concrete failed save over an existing file keeps it. -/
theorem save_failed_keeps_existing_target_witness :
    (save failAtCreateTemp 0o644 0o600
        ⟨true, some ⟨.json (encodeStore []), 0o600⟩, none⟩ []).fs.target =
      some ⟨.json (encodeStore []), 0o600⟩ :=
  save_failed_keeps_existing_target failAtCreateTemp 0o644 0o600
    ⟨true, some ⟨.json (encodeStore []), 0o600⟩, none⟩ [] _ rfl rfl

/-- Claim C2: saving any collection (nominal run: no step fails) and then opening
the same path yields exactly the same records in the same order — the JSON
round-trip is lossless for every field, including an absent `phone`. -/
theorem save_open_roundtrip (dm tm : Nat) (fs : FS) (cs : List Contact) :
    (save noFailure dm tm fs cs).failed = none ∧
    (openStore noFailureOpen (save noFailure dm tm fs cs).fs).1 = .ok cs := by
  have hnone : (save noFailure dm tm fs cs).failed = none := by
    rw [save]
    exact (runSteps_failed_none_iff _ _ _ _).mpr (fun s _ => rfl)
  refine ⟨hnone, ?_⟩
  rw [save_success_fs _ _ _ _ _ hnone]
  simp [openStore, noFailureOpen, decodeFile, decodeStore, encodeStore,
    decodeList_map_encode]

/-- Claim C5: after every successful save (whatever the failure oracle, the default
creation mode, and the temp-file creation mode), the backing file's
permission bits are exactly `0o600` — owner read/write only. -/
theorem save_success_permissions (fail : SaveStep → Bool) (dm tm : Nat)
    (fs : FS) (cs : List Contact)
    (h : (save fail dm tm fs cs).failed = none) :
    ((save fail dm tm fs cs).fs.target).map SFile.mode = some 0o600 := by
  rw [save_success_fs fail dm tm fs cs h]
  rfl

/-- Claim C5 (witness): a concrete successful save yields mode `0o600`. -/
theorem save_success_permissions_witness :
    (save noFailure 0o644 0o777 ⟨false, none, none⟩ []).failed = none ∧
    ((save noFailure 0o644 0o777 ⟨false, none, none⟩ []).fs.target).map SFile.mode =
      some 0o600 :=
  ⟨rfl, save_success_permissions noFailure 0o644 0o777 ⟨false, none, none⟩ [] rfl⟩

/-- Claim C6: opening an existing file whose contents do not parse as a JSON array
of well-formed records (nominal run: no I/O step fails) surfaces a corrupt
store error carrying the offending content as diagnostic, and never returns
a collection — in particular not the empty one. -/
theorem open_corrupt_fails (fs : FS) (f : SFile)
    (hexist : fs.target = some f)
    (hbad : decodeFile f.content = none) :
    (openStore noFailureOpen fs).1 = .error (.corrupt f.content) ∧
    ∀ cs : List Contact, (openStore noFailureOpen fs).1 ≠ .ok cs := by
  have : (openStore noFailureOpen fs).1 = .error (.corrupt f.content) := by
    simp [openStore, hexist, noFailureOpen, hbad]
  exact ⟨this, fun cs hc => by rw [this] at hc; exact Except.noConfusion hc⟩

/-- Claim C6 (witness): an existing file holding unparseable text makes `open`
fail with the corrupt-store error. -/
theorem open_corrupt_fails_witness :
    (openStore noFailureOpen ⟨true, some ⟨.invalid "not json".data, 0o600⟩, none⟩).1 =
      .error (.corrupt (.invalid "not json".data)) ∧
    ∀ cs : List Contact,
      (openStore noFailureOpen ⟨true, some ⟨.invalid "not json".data, 0o600⟩, none⟩).1 ≠
        .ok cs :=
  open_corrupt_fails ⟨true, some ⟨.invalid "not json".data, 0o600⟩, none⟩
    ⟨.invalid "not json".data, 0o600⟩ rfl rfl

/-- Claim C7: opening a path at which no file exists returns the empty collection
and leaves the file system untouched (no file is created), whatever the
failure oracle — the source returns before any fallible operation. -/
theorem open_missing_file (fail : OpenStep → Bool) (fs : FS)
    (hmissing : fs.target = none) :
    openStore fail fs = (.ok [], fs) := by
  simp [openStore, hmissing]

/-- Claim C7 (witness): opening a fresh path yields the empty collection. -/
theorem open_missing_file_witness :
    openStore noFailureOpen ⟨false, none, none⟩ = (.ok [], ⟨false, none, none⟩) :=
  open_missing_file noFailureOpen ⟨false, none, none⟩ rfl

/-! ## Raw on-disk records (for the no-validation claim) -/

/-- The three on-disk shapes of the `phone` field. -/
inductive PhoneRaw where
  | absent
  | null
  | strVal (p : Str)

/-- An arbitrary on-disk record: string `id`, `name`, `email` fields of any
value whatsoever (empty, untrimmed, over any length limit), and a `phone`
that is a string, JSON `null`, or absent. -/
structure RawRecord where
  id : Str
  name : Str
  email : Str
  phone : PhoneRaw

/-- The JSON object a `RawRecord` denotes. -/
def rawToJson (r : RawRecord) : Json :=
  .obj ([("id".data, .str r.id), ("name".data, .str r.name),
         ("email".data, .str r.email)] ++
        match r.phone with
        | .absent => []
        | .null => [("phone".data, Json.null)]
        | .strVal p => [("phone".data, Json.str p)])

/-- The contact a `RawRecord` loads as: every field verbatim, an absent or
null phone as `none`. -/
def rawContact (r : RawRecord) : Contact :=
  ⟨r.id, r.name, r.email, match r.phone with | .strVal p => some p | _ => none⟩

theorem decodeContact_rawToJson (r : RawRecord) :
    decodeContact (rawToJson r) = some (rawContact r) := by
  cases r with
  | mk i n e p =>
    cases p <;>
      simp [decodeContact, rawToJson, rawContact, decodeStrField,
        decodePhoneField, jsonLookup]

theorem decodeList_map_rawToJson (rs : List RawRecord) :
    decodeList (rs.map rawToJson) = some (rs.map rawContact) := by
  induction rs with
  | nil => rfl
  | cons r rest ih => simp [decodeList, decodeContact_rawToJson, ih]

/-- Claim C10: `open` applies none of the validator's constraints.  Any existing
file holding a JSON array of objects with string `id`, `name`, `email`
(each of arbitrary value: empty, untrimmed, over the length limits) and a
`phone` that is a string, `null`, or absent loads successfully, yielding
exactly those records verbatim and in order, with an absent or null phone
loaded as no phone. -/
theorem open_applies_no_validation (rs : List RawRecord) (dirE : Bool)
    (temp : Option SFile) (m : Nat) :
    (openStore noFailureOpen
        ⟨dirE, some ⟨.json (.arr (rs.map rawToJson)), m⟩, temp⟩).1 =
      .ok (rs.map rawContact) := by
  simp [openStore, noFailureOpen, decodeFile, decodeStore, decodeList_map_rawToJson]

/-- Forget a contact's phone (used to show `find` never matches phones). -/
def clearPhone (c : Contact) : Contact :=
  { c with phone := none }

/-- Claim C8: `find` returns exactly the records whose name or email contains
the query as a case-insensitive substring — the lowered name or email has
the lowered query as a substring — in the collection's original order (the
result is a sublist), with the empty query matching every record, and with
the phone field never consulted (clearing every phone commutes with `find`).
Proved for every lowering function `low` that maps the empty string to
itself, so in particular for the program's Rust `str::to_lowercase`. -/
theorem find_case_insensitive_substring (low : Str → Str) (hlow : low [] = [])
    (cs : List Contact) (q : Str) :
    (Store.find low cs q).Sublist cs ∧
    Store.find low cs [] = cs ∧
    (∀ c, c ∈ Store.find low cs q ↔
      c ∈ cs ∧ (low q <:+: low c.name ∨ low q <:+: low c.email)) ∧
    Store.find low (cs.map clearPhone) q = (Store.find low cs q).map clearPhone := by
  refine ⟨List.filter_sublist cs, ?_, ?_, ?_⟩
  · simp [Store.find, hlow, containsSub_empty]
  · intro c
    simp [Store.find, List.mem_filter, containsSub_iff]
  · have hp : ((fun c => containsSub (low c.name) (low q) ||
        containsSub (low c.email) (low q)) ∘ clearPhone) =
        (fun c => containsSub (low c.name) (low q) ||
          containsSub (low c.email) (low q)) := rfl
    simp only [Store.find, List.filter_map, hp]

/-- Claim C8 (witness): a sample lowering instance on a concrete collection —
the empty query returns the whole collection. -/
theorem find_case_insensitive_substring_witness :
    Store.find (fun s => s.map Char.toLower)
        [Contact.mk ['i'] ['A'] ['e'] none] [] =
      [Contact.mk ['i'] ['A'] ['e'] none] :=
  (find_case_insensitive_substring (fun s => s.map Char.toLower) rfl
    [Contact.mk ['i'] ['A'] ['e'] none] ['z']).2.1

/-- Claim C9: `remove` deletes every record whose identifier equals the given id
(the result has no such record, keeps each other record, and is a sublist —
so relative order is preserved), and returns `true` exactly when at least
one record was removed. -/
theorem remove_all_matches (cs : List Contact) (id : Str) :
    (∀ c ∈ (Store.remove cs id).1, c.id ≠ id) ∧
    (∀ c ∈ cs, c.id ≠ id → c ∈ (Store.remove cs id).1) ∧
    ((Store.remove cs id).1).Sublist cs ∧
    ((Store.remove cs id).2 = true ↔ ∃ c ∈ cs, c.id = id) := by
  refine ⟨?_, ?_, List.filter_sublist cs, ?_⟩
  · intro c hc
    have := (List.mem_filter.mp hc).2
    simpa [bne_iff_ne] using this
  · intro c hc hne
    exact List.mem_filter.mpr ⟨hc, by simpa [bne_iff_ne] using hne⟩
  · rw [Store.remove]
    simp only [bne_iff_ne, ne_eq]
    constructor
    · intro h
      by_contra hnone
      push_neg at hnone
      have : cs.filter (fun c => c.id != id) = cs :=
        List.filter_eq_self.mpr (fun c hc => by simpa [bne_iff_ne] using hnone c hc)
      simp [this] at h
    · intro ⟨c, hc, hcid⟩
      have hlt : (cs.filter (fun c => c.id != id)).length < cs.length :=
        List.length_filter_lt_length_iff_exists.mpr ⟨c, hc, by simp [hcid]⟩
      simp [Nat.ne_of_gt hlt]

set_option maxRecDepth 10000 in
/-- Claim C3 (counterexample): validation does NOT trim before the length checks,
and the length checks count UTF-8 bytes of the untrimmed input.  A name of a
single leading space followed by 200 `x`s trims to exactly 200 non-empty
characters — the claim says construction succeeds — yet `Contact::new`
rejects it (`name.len()` is 201).  Likewise a name of 101 `é`s is 101
characters but 202 UTF-8 bytes, and is rejected. -/
theorem contact_new_untrimmed_length_cx :
    Contact.new [] (' ' :: List.replicate 200 'x') ['a'] none =
      .error .nameTooLong ∧
    trimStr (' ' :: List.replicate 200 'x') = List.replicate 200 'x' ∧
    (trimStr (' ' :: List.replicate 200 'x')).length = 200 ∧
    trimStr (' ' :: List.replicate 200 'x') ≠ [] ∧
    Contact.new [] (List.replicate 101 'é') ['a'] none = .error .nameTooLong ∧
    (List.replicate 101 'é').length = 101 ∧
    trimStr (List.replicate 101 'é') = List.replicate 101 'é' :=
  ⟨rfl, by decide, by decide, by decide, rfl, by decide, by decide⟩

/-- Claim C3 (amended): `Contact::new` trims before the emptiness checks and
before storage, but the length checks apply to the *untrimmed* argument and
count UTF-8 bytes: construction succeeds exactly when the trimmed name and
trimmed email are non-empty, the untrimmed name is at most 200 bytes, the
untrimmed email at most 320 bytes, and the untrimmed phone, when present,
at most 50 bytes; the stored fields are the trimmed strings. -/
theorem contact_new_spec (uuid name email : Str) (phone : Option Str) :
    ((∃ c, Contact.new uuid name email phone = .ok c) ↔
      (trimStr name ≠ [] ∧ trimStr email ≠ [] ∧ utf8Len name ≤ 200 ∧
       utf8Len email ≤ 320 ∧ ∀ p, phone = some p → utf8Len p ≤ 50)) ∧
    ∀ c, Contact.new uuid name email phone = .ok c →
      c = ⟨uuid, trimStr name, trimStr email, phone.map trimStr⟩ := by
  unfold Contact.new
  cases phone with
  | none =>
      split_ifs with h1 h2 h3 <;>
        (simp_all [List.isEmpty_iff, not_or, Nat.not_lt]; try tauto)
  | some p =>
      dsimp only
      split_ifs with h1 h2 h3 h4 <;>
        (simp_all [List.isEmpty_iff, not_or, Nat.not_lt]; try tauto)

/-- Claim C3 (witness): a concrete valid input — untrimmed whitespace around a
short name — is accepted and stored trimmed. -/
theorem contact_new_spec_witness :
    (∃ c, Contact.new [] (' ' :: 'A' :: [' ']) ('a' :: ['b']) (some [' ']) = .ok c) ∧
    ∀ c, Contact.new [] (' ' :: 'A' :: [' ']) ('a' :: ['b']) (some [' ']) = .ok c →
      c = ⟨[], trimStr (' ' :: 'A' :: [' ']), trimStr ('a' :: ['b']),
            (some [' ']).map trimStr⟩ :=
  ⟨(contact_new_spec [] (' ' :: 'A' :: [' ']) ('a' :: ['b']) (some [' '])).1.mpr
      (by refine ⟨by decide, by decide, by decide, by decide, ?_⟩
          intro p hp
          cases hp
          decide),
   (contact_new_spec [] (' ' :: 'A' :: [' ']) ('a' :: ['b']) (some [' '])).2⟩

/-- Claim C4 (counterexample): in the nominal save (no step fails, every step
executes), the permission bits are set on the temporary file BEFORE the
durability sync — not after it as the claim's ordering (sync at step 6
before permission-set at step 7) states. -/
theorem save_sync_after_permissions_cx :
    (save noFailure 0o644 0o600 ⟨false, none, none⟩ []).trace.indexOf
        SaveStep.setPermissions <
      (save noFailure 0o644 0o600 ⟨false, none, none⟩ []).trace.indexOf
        SaveStep.syncTemp ∧
    ¬ ((save noFailure 0o644 0o600 ⟨false, none, none⟩ []).trace.indexOf
        SaveStep.syncTemp <
      (save noFailure 0o644 0o600 ⟨false, none, none⟩ []).trace.indexOf
        SaveStep.setPermissions) := by
  decide

/-- Claim C4 (amended): every save executes its steps as a prefix of the fixed
order `saveOrder` (all of it when no step fails), in which the buffer flush
comes before the permission-set, the permission-set before the durability
sync, and the sync before the atomic rename — so flush, permission-set and
sync all happen on the temporary file before it becomes visible under the
final name. -/
theorem save_step_ordering (fail : SaveStep → Bool) (dm tm : Nat) (fs : FS)
    (cs : List Contact) :
    (save fail dm tm fs cs).trace <+: saveOrder ∧
    ((save fail dm tm fs cs).failed = none →
      (save fail dm tm fs cs).trace = saveOrder) ∧
    saveOrder.indexOf SaveStep.flushTemp < saveOrder.indexOf SaveStep.setPermissions ∧
    saveOrder.indexOf SaveStep.setPermissions < saveOrder.indexOf SaveStep.syncTemp ∧
    saveOrder.indexOf SaveStep.syncTemp < saveOrder.indexOf SaveStep.renameTemp := by
  refine ⟨?_, ?_, by decide, by decide, by decide⟩
  · rw [save]; exact runSteps_trace_le _ _ _ _
  · intro h; rw [save] at h ⊢; exact runSteps_trace_of_none _ _ _ _ h

/-- Claim C4 (witness): the nominal save executes exactly the steps of
`saveOrder`. -/
theorem save_step_ordering_witness :
    (save noFailure 0o644 0o600 ⟨false, none, none⟩ []).trace = saveOrder :=
  (save_step_ordering noFailure 0o644 0o600 ⟨false, none, none⟩ []).2.1 rfl

/-- Claim C9 (witness): removing an existing id from a concrete two-record
collection keeps the other record and reports `true`. -/
theorem remove_all_matches_witness :
    Contact.mk ['b'] ['B'] ['e'] none ∈
      (Store.remove [⟨['a'], ['A'], ['d'], none⟩, ⟨['b'], ['B'], ['e'], none⟩] ['a']).1 ∧
    (Store.remove [⟨['a'], ['A'], ['d'], none⟩, ⟨['b'], ['B'], ['e'], none⟩] ['a']).2 = true :=
  ⟨(remove_all_matches [⟨['a'], ['A'], ['d'], none⟩, ⟨['b'], ['B'], ['e'], none⟩] ['a']).2.1
      ⟨['b'], ['B'], ['e'], none⟩ (by decide) (by decide),
   (remove_all_matches [⟨['a'], ['A'], ['d'], none⟩, ⟨['b'], ['B'], ['e'], none⟩] ['a']).2.2.2.mpr
      ⟨⟨['a'], ['A'], ['d'], none⟩, by decide, by decide⟩⟩
